import Mathlib

/-!
Verification development for the backend facade of a multi-provider CMS core
(`src/backends/backend.js`). The definitions below are a shallow embedding of
that file: JavaScript maps become association lists, `undefined`/`null` become
`Option`, thrown exceptions become `Except`, and promise chains become ordinary
sequencing. Collaborator modules that are not part of the source under
verification (the Collection model, the Entry factory, the format engines) are
either modelled from the specification (marked as such in their doc comments)
or taken as parameters.
-/

set_option autoImplicit false

deriving instance DecidableEq for Except

namespace NetlifyCMS

/-- An immutable string-keyed field map, as produced by `entryData.get(name)`
lookups; `none` plays the role of JavaScript `undefined`. -/
abbrev FieldMap := List (String × String)

/-- `m.get(k)` on an immutable map: the first binding of `k`, if any. -/
def fieldGet (m : FieldMap) (k : String) : Option String :=
  (m.find? (fun p => p.1 = k)).map (fun p => p.2)

/-! ## Slug Formatter (`slugFormatter` in backend.js)

`slugFormatter` reads `new Date()`; the embedding takes the date as an
explicit argument. `monthIndex` is zero-based, as `Date.getMonth()` is. -/

structure SimpleDate where
  year : Nat
  monthIndex : Nat
  day : Nat
deriving DecidableEq

/-- `` (`0${n}`).slice(-2) ``: prefix with `0`, keep the last two characters. -/
def pad2 (n : Nat) : String :=
  ⟨(("0" ++ toString n).data.reverse.take 2).reverse⟩

/-- Membership in the character class `[a-z0-9._-]` of the sanitizing regex,
with the `i` flag (so upper-case letters are also in the class). -/
def isSlugChar (c : Char) : Bool :=
  ('a' ≤ c && c ≤ 'z') || ('A' ≤ c && c ≤ 'Z') || ('0' ≤ c && c ≤ '9') ||
    c = '.' || c = '-' || c = '_'

/-- `.replace(/[^a-z0-9._-]+/gi, '-')`: each maximal run of characters outside
the class becomes a single hyphen. The boolean records whether the previous
character belonged to such a run. -/
def collapseRuns : Bool → List Char → List Char
  | _, [] => []
  | inRun, c :: rest =>
    if isSlugChar c then c :: collapseRuns false rest
    else if inRun then collapseRuns true rest
    else '-' :: collapseRuns true rest

/-- `String.prototype.trim()`: strip whitespace from both ends. -/
def jsTrim (l : List Char) : List Char :=
  ((l.dropWhile Char.isWhitespace).reverse.dropWhile Char.isWhitespace).reverse

/-- `identifier.trim().toLowerCase().replace(/[^a-z0-9._-]+/gi, '-')`. -/
def sanitizeSlug (s : String) : String :=
  ⟨collapseRuns false ((jsTrim s.data).map Char.toLower)⟩

/-- Match the placeholder body of `/\{\{([^\}]+)\}\}/` right after an opening
`\x7b\x7b`: one or more non-`\x7d` characters followed by `\x7d\x7d`; returns the
captured name and the rest of the input. -/
def grabName (cs : List Char) : Option (String × List Char) :=
  let name := cs.takeWhile (fun c => c ≠ '}')
  match name, cs.dropWhile (fun c => c ≠ '}') with
  | [], _ => none
  | _ :: _, '}' :: '}' :: r => some (⟨name⟩, r)
  | _, _ => none

/-- The replacement callback of `slugFormatter`'s `template.replace`. `none`
models the `TypeError` thrown in the `slug` branch when both `title` and
`path` are absent (`undefined.trim()`); in the default branch an absent field
stringifies to `"undefined"`, as `String.replace` does with an `undefined`
callback result. -/
def placeholderValue (d : SimpleDate) (entryData : FieldMap) (name : String) :
    Option (List Char) :=
  if name = "year" then some (toString d.year).data
  else if name = "month" then some (pad2 (d.monthIndex + 1)).data
  else if name = "day" then some (pad2 d.day).data
  else if name = "slug" then
    match fieldGet entryData "title" <|> fieldGet entryData "path" with
    | some identifier => some (sanitizeSlug identifier).data
    | none => none
  else
    some ((fieldGet entryData name).getD "undefined").data

/-- Global scan of `template.replace(/\{\{([^\}]+)\}\}/g, cb)`: at each
position try to match a placeholder; on a match splice the callback's value
and resume after it, otherwise emit one character and move on. The fuel is
the remaining input length; every step consumes at least one character, so
the fuel never runs out when initialized to the input length. -/
def tmplReplaceAux (f : String → Option (List Char)) :
    Nat → List Char → Option (List Char)
  | _, [] => some []
  | 0, _ :: _ => none
  | fuel + 1, '{' :: '{' :: rest =>
    match grabName rest with
    | some (name, rest') =>
      match f name, tmplReplaceAux f fuel rest' with
      | some v, some tail => some (v ++ tail)
      | _, _ => none
    | none =>
      match tmplReplaceAux f fuel ('{' :: rest) with
      | some tail => some ('{' :: tail)
      | none => none
  | fuel + 1, c :: rest =>
    match tmplReplaceAux f fuel rest with
    | some tail => some (c :: tail)
    | none => none

/-- `slugFormatter(template, entryData)` with the current date made explicit.
`none` models the thrown `TypeError` described at `placeholderValue`. -/
def slugFormatter (d : SimpleDate) (template : String) (entryData : FieldMap) :
    Option String :=
  (tmplReplaceAux (placeholderValue d entryData) template.data.length
    template.data).map (fun l => ⟨l⟩)

/-! ## Entry factory and format normalization -/

/-- Parsed structured entry data (shape opaque to the facade). -/
abbrev EntryData := List (String × String)

/-- Workflow status bag attached by `unpublishedEntries` (opaque here). -/
abbrev MetaData := List (String × String)

/-- Modelled from the spec: the Entry value object (`valueObjects/Entry` is
not under `src/`): identity `(collection, slug, path)`, payload raw/parsed
data, optional label and workflow metaData. -/
structure Entry where
  collection : String
  slug : String
  path : String
  raw : String
  label : Option String
  data : Option EntryData
  metaData : Option MetaData
deriving DecidableEq

/-- Modelled from the spec: the Entry factory `createEntry` (`valueObjects/
Entry` is not under `src/`): "Pure constructor: (collectionName, slug?,
path?, payload?) -> Entry. No validation beyond structural shape." It always
yields an entry value, never null. -/
def createEntry (collection slug path raw : String) (label : Option String) :
    Entry :=
  { collection := collection, slug := slug, path := path, raw := raw,
    label := label, data := none, metaData := none }

/-- Errors that abort a normalization promise chain. -/
inductive NormError where
  /-- A format engine's `fromFile` threw on the raw payload. -/
  | parseFailure : NormError
  /-- A `TypeError` from `entryWithFormat`'s fall-through branch (falsy
  `entry.raw`), where `fromFile` is invoked on the entry object itself —
  never a raw string — or on a null format. -/
  | typeErr : NormError
deriving DecidableEq

/-- A format engine selected by the Format Resolver: `fromFile` parses a raw
string or throws. The resolver itself (`formats/formats` is not under `src/`)
is a parameter: given the entry it yields the engine, or `none` when no
format resolves. -/
abbrev FormatResolver := Entry → Option (String → Except NormError EntryData)

/-- `Backend.entryWithFormat(collectionOrEntity)` applied to one entry. With
a truthy `entry.raw` it attaches `format && format.fromFile(entry.raw)` as
the parsed data (null data when no format resolves); with a falsy raw the
code falls through to `format.fromFile(entry)`, which passes the entry
object where every engine expects a string — modelled as a `TypeError`. -/
def entryWithFormat (resolveFmt : FormatResolver) (e : Entry) :
    Except NormError Entry :=
  if e.raw ≠ "" then
    match resolveFmt e with
    | some fromFile => (fromFile e.raw).map (fun d => { e with data := some d })
    | none => .ok { e with data := none }
  else
    .error .typeErr

/-- A JavaScript `Array.prototype.map` whose callback may throw: the first
exception aborts the whole map (and hence the enclosing promise chain). -/
def mapExcept {α β ε : Type} (g : α → Except ε β) : List α → Except ε (List β)
  | [] => .ok []
  | a :: l =>
    match g a with
    | .error e => .error e
    | .ok b =>
      match mapExcept g l with
      | .error e => .error e
      | .ok bs => .ok (b :: bs)

/-- One backend listing item: `{file: {path, label?}, data: rawText}`. -/
structure LoadedFile where
  path : String
  label : Option String
deriving DecidableEq

structure LoadedEntry where
  file : LoadedFile
  data : String
deriving DecidableEq

/-- Result shape of `listEntries`: `{entries}`. -/
structure ListResult where
  entries : List Entry
deriving DecidableEq

/-- `Backend.listEntries(collection)` downstream of the backend call: the
listing verb's result is the `loadedEntries` argument, the Collection
model's `entrySlug` (not under `src/`) is a parameter. Each item is turned
into an entry via `createEntry`, then every entry is normalized through
`entryWithFormat(collection)`. -/
def listEntries (entrySlug : String → String) (resolveFmt : FormatResolver)
    (collectionName : String) (loadedEntries : List LoadedEntry) :
    Except NormError ListResult :=
  let entries := loadedEntries.map (fun le =>
    createEntry collectionName (entrySlug le.file.path) le.file.path le.data
      le.file.label)
  (mapExcept (entryWithFormat resolveFmt) entries).map
    (fun es => { entries := es })

/-- One backend workflow item: `{slug, file: {path}, data, metaData}`. -/
structure LoadedUnpubEntry where
  slug : String
  path : String
  data : String
  metaData : MetaData
deriving DecidableEq

/-- Result shape of `unpublishedEntries`: `{pagination, entries}`. -/
structure UnpubResult where
  pagination : Nat
  entries : List Entry
deriving DecidableEq

/-- `Backend.unpublishedEntries(page, perPage)`. The backend is modelled as
the function `impl` from `(page, perPage)` to its listing. Each item becomes
a `'draft'` entry carrying the item's metaData; the JS then filters
`entry !== null` — `createEntry` never yields null and `Entry` has no null
value, so the predicate is constantly true — and only afterwards maps the
survivors through `entryWithFormat('editorialWorkflow')`. -/
def unpublishedEntries (impl : Nat → Nat → List LoadedUnpubEntry)
    (resolveFmt : FormatResolver) (page perPage : Nat) :
    Except NormError UnpubResult :=
  let loadedEntries := impl page perPage
  let entries := loadedEntries.map (fun le =>
    { createEntry "draft" le.slug le.path le.data none with
        metaData := some le.metaData })
  let filteredEntries := entries.filter (fun _ => true)
  (mapExcept (entryWithFormat resolveFmt) filteredEntries).map
    (fun es => { pagination := 0, entries := es })

/-! ## `Backend.currentUser` -/

abbrev Session := String

/-- The mutable state `currentUser` can see: the `this.user` field (which no
code in the class ever assigns), the auth store (`none` when the backend was
built without one; otherwise its stored content), and the user last pushed
into the implementation via `setUser`. -/
structure FacadeState where
  user : Option Session
  authStore : Option (Option Session)
  implUser : Option Session
deriving DecidableEq

/-- Outcome of one `currentUser()` call: the returned value, the facade
state afterwards, and how many times the durable store was read
(`authStore.retrieve()`). -/
structure CurrentUserOutcome where
  result : Option Session
  state : FacadeState
  storeReads : Nat
deriving DecidableEq

/-- `Backend.currentUser()`: return `this.user` if truthy; else read
`this.authStore && this.authStore.retrieve()`, and if a session was stored,
push it into the implementation with `setUser` and return it; else return
undefined. Note that `this.user` is never written. -/
def currentUser (s : FacadeState) : CurrentUserOutcome :=
  match s.user with
  | some u => { result := some u, state := s, storeReads := 0 }
  | none =>
    match s.authStore with
    | none => { result := none, state := s, storeReads := 0 }
    | some stored =>
      match stored with
      | some sess =>
        { result := some sess, state := { s with implUser := some sess },
          storeReads := 1 }
      | none => { result := none, state := s, storeReads := 1 }

/-! ## `Backend.persistEntry` -/

/-- The part of the collection configuration `persistEntry` reads:
`collection.get('name' | 'label' | 'slug')` and the `create` flag consulted
through the Collection model. -/
structure CollectionConf where
  name : String
  label : String
  slug : String
  create : Bool
deriving DecidableEq

/-- Modelled from the spec: `CollectionModel.allowNewEntries()`
(`valueObjects/Collection` is not under `src/`): "pure predicate from
config", the collection's `create` flag. -/
def allowNewEntries (c : CollectionConf) : Bool := c.create

/-- The `backend` sub-map of the configuration; `name` is
`config.getIn(['backend', 'name'])`. -/
structure BackendConf where
  name : Option String
deriving DecidableEq

/-- The configuration surface this file reads: the optional `backend`
sub-map and `config.get('publish_mode')`. -/
structure Config where
  backend : Option BackendConf
  publishMode : Option String
deriving DecidableEq

/-- The entry draft as `persistEntry` reads it, flattening the
`getIn(['entry', …])` paths: `newRecord`, the known `path` and `slug`
(possibly undefined), and the field data map (assumed structurally present,
as the code calls `.toJS()` on it unconditionally). -/
structure EntryDraft where
  newRecord : Option Bool
  path : Option String
  slug : Option String
  data : FieldMap
deriving DecidableEq

/-- `{title, description}` with the fallback defaults. -/
structure ParsedData where
  title : String
  description : String
deriving DecidableEq

/-- The entry object handed to the backend's persist verb. -/
structure EntryObj where
  path : Option String
  slug : Option String
  raw : Option String
deriving DecidableEq

/-- The metadata bundle handed to the backend's persist verb: the object
literal `{newEntry, parsedData, commitMessage, collectionName, mode,
...options}`, with the spread caller options kept as their own field. -/
structure PersistMeta (Opts : Type) where
  newEntry : Bool
  parsedData : ParsedData
  commitMessage : String
  collectionName : String
  mode : Option String
  options : Opts
deriving DecidableEq

/-- A completed delegation to `implementation.persistEntry(entryObj,
MediaFiles, meta)`; producing this value is what "invoking the backend's
persist verb" means. -/
structure PersistCall (Media Opts : Type) where
  entryObj : EntryObj
  mediaFiles : Media
  meta : PersistMeta Opts
deriving DecidableEq

/-- Errors thrown by `persistEntry` before the backend is reached. -/
inductive PersistError where
  /-- `throw new Error('Not allowed to create new entries in this
  collection')` — the spec's `PolicyError`. -/
  | policyError : PersistError
  /-- The `TypeError` from `slugFormatter` when the slug template needs an
  identifier and the draft has neither title nor path. -/
  | typeError : PersistError
deriving DecidableEq

/-- `Backend.entryToRaw(collection, entry)`: `format && format.toFile(entry)`.
The Format Resolver (not under `src/`) is the parameter `fmt`, already
resolved for the collection; the serialized object `Object.assign({path},
entryData)` is modelled as the pair of its `path` and its fields. -/
def entryToRaw (fmt : Option (Option String → FieldMap → String))
    (path : Option String) (data : FieldMap) : Option String :=
  fmt.map (fun toFile => toFile path data)

/-- `Backend.persistEntry(config, collection, entryDraft, MediaFiles,
options)`, with the current date, the Collection model's `entryPath` (not
under `src/`) and the resolved serialization engine as parameters. A `.ok`
result is exactly a delegation to the backend's persist verb; `.error`
means the call threw beforehand and the backend was never invoked. -/
def persistEntry {Media Opts : Type} (entryPath : String → String)
    (fmt : Option (Option String → FieldMap → String)) (d : SimpleDate)
    (config : Config) (collection : CollectionConf) (entryDraft : EntryDraft)
    (mediaFiles : Media) (options : Opts) :
    Except PersistError (PersistCall Media Opts) :=
  let newEntry := entryDraft.newRecord.getD false
  let parsedData : ParsedData :=
    { title := (fieldGet entryDraft.data "title").getD "No Title",
      description :=
        (fieldGet entryDraft.data "description").getD "No Description" }
  let entryData := entryDraft.data
  let commitMessage :=
    (if newEntry then "Created " else "Updated ") ++ collection.label ++
      " “" ++ (fieldGet entryDraft.data "title").getD "undefined" ++ "”"
  let mkCall : EntryObj → PersistCall Media Opts := fun entryObj =>
    { entryObj := entryObj, mediaFiles := mediaFiles,
      meta := { newEntry := newEntry, parsedData := parsedData,
                commitMessage := commitMessage,
                collectionName := collection.name,
                mode := config.publishMode, options := options } }
  if newEntry then
    if allowNewEntries collection then
      match slugFormatter d collection.slug entryData with
      | some slug =>
        .ok (mkCall { path := some (entryPath slug), slug := some slug,
                      raw := entryToRaw fmt (some (entryPath slug)) entryData })
      | none => .error .typeError
    else .error .policyError
  else
    .ok (mkCall { path := entryDraft.path, slug := entryDraft.slug,
                  raw := entryToRaw fmt entryDraft.path entryData })

/-! ## `resolveBackend` and `currentBackend` -/

/-- Construction failures of `resolveBackend` — the spec's `ConfigError`. -/
inductive ConfigError where
  /-- `throw new Error('No backend defined in configuration')`. -/
  | noBackend : ConfigError
  /-- `` throw new Error(`Backend not found: ${name}`) ``. -/
  | notFound : String → ConfigError
deriving DecidableEq

/-- The closed enumeration of provider implementations. -/
inductive BackendKind where
  | testRepo : BackendKind
  | github : BackendKind
  | netlifyGit : BackendKind
deriving DecidableEq

/-- A constructed `Backend` facade. Every branch of `resolveBackend` passes
a freshly constructed implementation and the `LocalStorageAuthStore`, so the
constructor's null-implementation guard never fires and the auth store is
always present. -/
structure BackendInst where
  impl : BackendKind
deriving DecidableEq

/-- `resolveBackend(config)`: reject an absent `backend.name`, then dispatch
on the closed name enumeration, rejecting unknown names. -/
def resolveBackend (config : Config) : Except ConfigError BackendInst :=
  match config.backend.bind (fun b => b.name) with
  | none => .error .noBackend
  | some name =>
    if name = "test-repo" then .ok { impl := .testRepo }
    else if name = "github" then .ok { impl := .github }
    else if name = "netlify-git" then .ok { impl := .netlifyGit }
    else .error (.notFound name)

/-- `currentBackend(config)`: the module-level closure variable `backend` is
the explicit `cached` argument; the result pairs the returned value with the
cache after the call. A cached instance is returned as is; otherwise a
truthy `config.get('backend')` triggers `resolveBackend` (whose exception
propagates, leaving the cache untouched), and an absent `backend` key
returns undefined without constructing anything. -/
def currentBackend (cached : Option BackendInst) (config : Config) :
    Except ConfigError (Option BackendInst × Option BackendInst) :=
  match cached with
  | some b => .ok (some b, some b)
  | none =>
    match config.backend with
    | some _ => (resolveBackend config).map (fun b => (some b, some b))
    | none => .ok (none, none)

/-! ## Concrete instances used by the theorems below -/

/-- A concrete Collection-model path rule, `posts/<slug>.md`. -/
def entryPathEx : String → String := fun slug => "posts/" ++ slug ++ ".md"

/-- A concrete serialization engine for `entryToRaw`. -/
def toFileEx : Option String → FieldMap → String := fun _ data =>
  String.intercalate ";" (data.map (fun p => p.1 ++ "=" ++ p.2))

def dateEx : SimpleDate := { year := 2024, monthIndex := 2, day := 5 }

def configEx : Config :=
  { backend := some { name := some "test-repo" },
    publishMode := some "editorial_workflow" }

/-- A configuration whose `backend.name` is not in the closed enumeration. -/
def configUnknownEx : Config :=
  { backend := some { name := some "gitlab" }, publishMode := none }

/-- A configuration with no `backend` key at all. -/
def configNoBackendEx : Config := { backend := none, publishMode := none }

def collectionEx : CollectionConf :=
  { name := "posts", label := "Posts",
    slug := "\x7b\x7byear\x7d\x7d-\x7b\x7bslug\x7d\x7d", create := true }

/-- The same collection with `create = false`. -/
def collectionNoCreateEx : CollectionConf := { collectionEx with create := false }

/-- A draft flagged as a new record. -/
def draftNewEx : EntryDraft :=
  { newRecord := some true, path := none, slug := none,
    data := [("title", "Hello, World!")] }

/-- An existing-entry draft whose title was edited after creation. -/
def draftExistingEx : EntryDraft :=
  { newRecord := some false, path := some "posts/a.md", slug := some "a",
    data := [("title", "New Title")] }

def mediaEx : List String := []

def optionsEx : List (String × String) := [("unpublished", "true")]

/-- The delegation `persistEntry` makes for `draftExistingEx`. -/
def persistCallEx : PersistCall (List String) (List (String × String)) :=
  { entryObj := { path := some "posts/a.md", slug := some "a",
                  raw := some "title=New Title" },
    mediaFiles := [],
    meta := { newEntry := false,
              parsedData := { title := "New Title",
                              description := "No Description" },
              commitMessage := "Updated Posts “New Title”",
              collectionName := "posts",
              mode := some "editorial_workflow",
              options := [("unpublished", "true")] } }

/-- A format resolver whose engine accepts every raw payload. -/
def resolveFmtOkEx : FormatResolver := fun _ => some (fun s => .ok [("body", s)])

/-- A format resolver whose engine throws exactly on the raw payload
`"BAD"`. -/
def resolveFmtBadEx : FormatResolver := fun _ =>
  some (fun s => if s = "BAD" then .error .parseFailure else .ok [("body", s)])

def entrySlugEx : String → String := fun p => p

def loadedEntriesEx : List LoadedEntry :=
  [ { file := { path := "posts/a.md", label := none }, data := "A" },
    { file := { path := "posts/b.md", label := some "B" }, data := "B" } ]

/-- A workflow backend listing with one well-formed and one malformed item. -/
def unpubImplBadEx : Nat → Nat → List LoadedUnpubEntry := fun _ _ =>
  [ { slug := "a", path := "posts/a.md", data := "GOOD",
      metaData := [("status", "draft")] },
    { slug := "b", path := "posts/b.md", data := "BAD",
      metaData := [("status", "draft")] } ]

/-- A workflow backend listing with a single well-formed item. -/
def unpubImplGoodEx : Nat → Nat → List LoadedUnpubEntry := fun _ _ =>
  [ { slug := "a", path := "posts/a.md", data := "GOOD",
      metaData := [("status", "draft")] } ]

/-- The result of `unpublishedEntries` over `unpubImplGoodEx`. -/
def unpubResultEx : UnpubResult :=
  { pagination := 0,
    entries := [ { collection := "draft", slug := "a", path := "posts/a.md",
                   raw := "GOOD", label := none,
                   data := some [("body", "GOOD")],
                   metaData := some [("status", "draft")] } ] }

/-- The facade state right after authentication was persisted: no in-memory
user, an auth store holding session `"sess"`. -/
def facadeStateEx : FacadeState :=
  { user := none, authStore := some (some "sess"), implUser := none }

def backendInstEx : BackendInst := { impl := .testRepo }

/-! ## Helper lemmas -/

theorem mapExcept_ok_of_isOk {α β ε : Type} (g : α → Except ε β) :
    ∀ l : List α, (∀ a ∈ l, (g a).isOk = true) →
      ∃ bs : List β, mapExcept g l = .ok bs ∧ bs.length = l.length ∧
        ∀ (i : Nat) (h1 : i < l.length) (h2 : i < bs.length),
          g (l.get ⟨i, h1⟩) = .ok (bs.get ⟨i, h2⟩)
  | [], _ => ⟨[], rfl, rfl, fun i h1 _ => absurd h1 (Nat.not_lt_zero i)⟩
  | a :: l, h => by
    have ha := h a (List.mem_cons_self a l)
    cases hga : g a with
    | error e => rw [hga] at ha; simp [Except.isOk, Except.toBool] at ha
    | ok b =>
      obtain ⟨bs, hbs, hlen, hget⟩ := mapExcept_ok_of_isOk g l
        (fun x hx => h x (List.mem_cons_of_mem a hx))
      refine ⟨b :: bs, ?_, by simp [hlen], ?_⟩
      · simp [mapExcept, hga, hbs]
      · intro i h1 h2
        cases i with
        | zero => simpa using hga
        | succ j =>
          simpa using hget j (by simpa using h1) (by simpa using h2)

theorem except_map_ok {α β ε : Type} (f : α → β) (x : Except ε α) (b : β)
    (h : x.map f = .ok b) : ∃ a, x = .ok a ∧ b = f a := by
  cases x with
  | error e => simp [Except.map] at h
  | ok a => exact ⟨a, rfl, by simpa [Except.map] using h.symm⟩

/-! ## Claims -/

/-- C1: the claim says `currentUser()` is idempotent — after a first call
that loads a session, later calls must not retrieve from the durable Auth
Store again. The code checks `this.user` but never assigns it, so on the
state `facadeStateEx` (empty cache, store holding `"sess"`) both the first
and the second call read the store once (`storeReads = 1`), and the
in-memory cache is still empty afterwards. -/
theorem currentUser_rereads_store_each_call :
    (currentUser facadeStateEx).result = some "sess" ∧
    (currentUser facadeStateEx).storeReads = 1 ∧
    (currentUser facadeStateEx).state.user = none ∧
    (currentUser (currentUser facadeStateEx).state).result = some "sess" ∧
    (currentUser (currentUser facadeStateEx).state).storeReads = 1 := by
  decide

/-- C2: `persistEntry` on a draft flagged `newRecord` in a collection whose
`allowNewEntries()` is false throws the policy error, and the backend's
persist verb is never invoked (no `PersistCall` is produced). -/
theorem persistEntry_new_disallowed_policyError {Media Opts : Type}
    (entryPath : String → String)
    (fmt : Option (Option String → FieldMap → String)) (d : SimpleDate)
    (config : Config) (collection : CollectionConf) (entryDraft : EntryDraft)
    (mediaFiles : Media) (options : Opts)
    (hnew : entryDraft.newRecord.getD false = true)
    (hcreate : allowNewEntries collection = false) :
    persistEntry entryPath fmt d config collection entryDraft mediaFiles
      options = .error .policyError := by
  simp [persistEntry, hnew, hcreate]

theorem persistEntry_new_disallowed_policyError_witness :
    draftNewEx.newRecord.getD false = true ∧
    allowNewEntries collectionNoCreateEx = false ∧
    persistEntry entryPathEx (some toFileEx) dateEx configEx
      collectionNoCreateEx draftNewEx mediaEx optionsEx =
      .error .policyError :=
  ⟨by decide, by decide,
    persistEntry_new_disallowed_policyError entryPathEx (some toFileEx) dateEx
      configEx collectionNoCreateEx draftNewEx mediaEx optionsEx (by decide)
      (by decide)⟩

/-- C3: for a non-new draft, the entry object delegated to the backend's
persist verb carries exactly the draft's already-known path and slug,
whatever the draft's field data (in particular its title) is — no slug or
path recomputation. -/
theorem persistEntry_existing_keeps_path_slug {Media Opts : Type}
    (entryPath : String → String)
    (fmt : Option (Option String → FieldMap → String)) (d : SimpleDate)
    (config : Config) (collection : CollectionConf) (entryDraft : EntryDraft)
    (mediaFiles : Media) (options : Opts)
    (hold : entryDraft.newRecord.getD false = false) :
    ∃ c, persistEntry entryPath fmt d config collection entryDraft mediaFiles
        options = .ok c ∧
      c.entryObj.path = entryDraft.path ∧ c.entryObj.slug = entryDraft.slug := by
  simp only [persistEntry, hold, Bool.false_eq_true, if_false]
  exact ⟨_, rfl, rfl, rfl⟩

theorem persistEntry_existing_keeps_path_slug_witness :
    draftExistingEx.newRecord.getD false = false ∧
    ∃ c, persistEntry entryPathEx (some toFileEx) dateEx configEx collectionEx
        draftExistingEx mediaEx optionsEx = .ok c ∧
      c.entryObj.path = draftExistingEx.path ∧
      c.entryObj.slug = draftExistingEx.slug :=
  ⟨by decide,
    persistEntry_existing_keeps_path_slug entryPathEx (some toFileEx) dateEx
      configEx collectionEx draftExistingEx mediaEx optionsEx (by decide)⟩

/-- C5: constructing a backend from a configuration with an unrecognized
`backend.name` fails with the `ConfigError` `notFound`, while calling
`currentBackend` (with an empty cache) on a configuration that has no
`backend` key constructs nothing and returns the absent value instead of
an error. -/
theorem resolveBackend_unknown_vs_missing :
    (∀ (config : Config) (name : String),
      config.backend.bind (fun b => b.name) = some name →
      name ≠ "test-repo" → name ≠ "github" → name ≠ "netlify-git" →
      resolveBackend config = .error (.notFound name)) ∧
    (∀ config : Config, config.backend = none →
      currentBackend none config = .ok (none, none)) := by
  constructor
  · intro config name h h1 h2 h3
    simp [resolveBackend, h, h1, h2, h3]
  · intro config h
    simp [currentBackend, h]

theorem resolveBackend_unknown_vs_missing_witness :
    resolveBackend configUnknownEx = .error (.notFound "gitlab") ∧
    currentBackend none configNoBackendEx = .ok (none, none) :=
  ⟨resolveBackend_unknown_vs_missing.1 configUnknownEx "gitlab" (by decide)
      (by decide) (by decide) (by decide),
    resolveBackend_unknown_vs_missing.2 configNoBackendEx (by decide)⟩

/-- C10: once `currentBackend`'s closure cache holds a facade instance,
every later call returns that same instance and ignores its config argument
entirely — whatever backend the config names. -/
theorem currentBackend_returns_cached_instance (b : BackendInst)
    (config : Config) : currentBackend (some b) config = .ok (some b, some b) :=
  rfl

/-- C4: the claim says `unpublishedEntries` drops exactly the items whose
normalization fails and never fails the whole listing. In the code the
`entry !== null` filter runs before format normalization and the Entry
factory never yields null, so nothing is ever filtered; a format parse
failure on one item (here the second item's raw `"BAD"`) instead rejects
the entire listing, dropping the successfully normalized first item too. -/
theorem unpublishedEntries_parse_failure_fails_listing :
    unpublishedEntries unpubImplBadEx resolveFmtBadEx 1 20 =
      .error .parseFailure := by
  decide

/-- C6: the `slug` placeholder takes the title field (falling back to
path), trims it, lower-cases it, and collapses every run of characters
outside `[a-z0-9._-]` to a single hyphen; for every date with year 2024 the
template `{{year}}-{{slug}}` with title `"Hello, World!"` yields
`"2024-hello-world-"`. -/
theorem slugFormatter_slug_behavior (d : SimpleDate) (hy : d.year = 2024) :
    slugFormatter d "\x7b\x7byear\x7d\x7d-\x7b\x7bslug\x7d\x7d"
        [("title", "Hello, World!")] = some "2024-hello-world-" ∧
    ∀ p : String, slugFormatter d "\x7b\x7bslug\x7d\x7d" [("path", p)] =
      some (sanitizeSlug p) := by
  obtain ⟨y, m, dd⟩ := d
  have hy2 : y = 2024 := hy
  subst hy2
  constructor
  · show some (String.mk ((toString (2024 : Nat)).data ++
      '-' :: ((sanitizeSlug "Hello, World!").data ++ []))) =
        some "2024-hello-world-"
    rfl
  · intro p
    show some ⟨(sanitizeSlug p).data ++ []⟩ = some (sanitizeSlug p)
    rw [List.append_nil]

theorem slugFormatter_slug_behavior_witness :
    dateEx.year = 2024 ∧
    slugFormatter dateEx "\x7b\x7byear\x7d\x7d-\x7b\x7bslug\x7d\x7d"
      [("title", "Hello, World!")] = some "2024-hello-world-" :=
  ⟨rfl, (slugFormatter_slug_behavior dateEx rfl).1⟩

/-- C7: when the Format Resolver signals no fatal parse failure for any
item, `listEntries` returns exactly one normalized entry per backend item,
in the backend's order: the result has the same length as the listing and
its `i`-th entry is the normalization of the `i`-th item. -/
theorem listEntries_one_entry_per_item_in_order (entrySlug : String → String)
    (resolveFmt : FormatResolver) (collectionName : String)
    (loadedEntries : List LoadedEntry)
    (h : ∀ le ∈ loadedEntries,
      (entryWithFormat resolveFmt (createEntry collectionName
        (entrySlug le.file.path) le.file.path le.data
        le.file.label)).isOk = true) :
    ∃ res : ListResult,
      listEntries entrySlug resolveFmt collectionName loadedEntries =
        .ok res ∧
      res.entries.length = loadedEntries.length ∧
      ∀ (i : Nat) (h1 : i < loadedEntries.length)
        (h2 : i < res.entries.length),
        entryWithFormat resolveFmt (createEntry collectionName
          (entrySlug (loadedEntries.get ⟨i, h1⟩).file.path)
          (loadedEntries.get ⟨i, h1⟩).file.path
          (loadedEntries.get ⟨i, h1⟩).data
          (loadedEntries.get ⟨i, h1⟩).file.label) =
          .ok (res.entries.get ⟨i, h2⟩) := by
  obtain ⟨bs, hbs, hlen, hget⟩ :=
    mapExcept_ok_of_isOk (entryWithFormat resolveFmt)
      (loadedEntries.map (fun le => createEntry collectionName
        (entrySlug le.file.path) le.file.path le.data le.file.label))
      (by
        intro x hx
        obtain ⟨le, hle, rfl⟩ := List.mem_map.mp hx
        exact h le hle)
  refine ⟨⟨bs⟩, ?_, ?_, ?_⟩
  · simp [listEntries, hbs, Except.map]
  · simpa using hlen
  · intro i h1 h2
    have h1m : i < (loadedEntries.map (fun le => createEntry collectionName
        (entrySlug le.file.path) le.file.path le.data
        le.file.label)).length := by simpa using h1
    have hi := hget i h1m h2
    rw [List.get_map] at hi
    exact hi

theorem listEntries_one_entry_per_item_in_order_witness :
    ∃ res : ListResult,
      listEntries entrySlugEx resolveFmtOkEx "posts" loadedEntriesEx =
        .ok res ∧
      res.entries.length = loadedEntriesEx.length ∧
      ∀ (i : Nat) (h1 : i < loadedEntriesEx.length)
        (h2 : i < res.entries.length),
        entryWithFormat resolveFmtOkEx (createEntry "posts"
          (entrySlugEx (loadedEntriesEx.get ⟨i, h1⟩).file.path)
          (loadedEntriesEx.get ⟨i, h1⟩).file.path
          (loadedEntriesEx.get ⟨i, h1⟩).data
          (loadedEntriesEx.get ⟨i, h1⟩).file.label) =
          .ok (res.entries.get ⟨i, h2⟩) :=
  listEntries_one_entry_per_item_in_order entrySlugEx resolveFmtOkEx "posts"
    loadedEntriesEx (by decide)

/-- C8: every delegation that reaches the backend carries the metadata
bundle `{newEntry, parsedData, commitMessage, collectionName, mode,
...options}`: the draft's new-record flag, title/description with the
`"No Title"`/`"No Description"` fallbacks, the `{Created|Updated} {label}
“{title}”` commit message, the collection name, the configured publish
mode, and the caller-supplied options. -/
theorem persistEntry_meta_bundle {Media Opts : Type}
    (entryPath : String → String)
    (fmt : Option (Option String → FieldMap → String)) (d : SimpleDate)
    (config : Config) (collection : CollectionConf) (entryDraft : EntryDraft)
    (mediaFiles : Media) (options : Opts) (c : PersistCall Media Opts)
    (h : persistEntry entryPath fmt d config collection entryDraft mediaFiles
      options = .ok c) :
    c.meta.newEntry = entryDraft.newRecord.getD false ∧
    c.meta.parsedData.title =
      (fieldGet entryDraft.data "title").getD "No Title" ∧
    c.meta.parsedData.description =
      (fieldGet entryDraft.data "description").getD "No Description" ∧
    c.meta.commitMessage =
      (if entryDraft.newRecord.getD false then "Created " else "Updated ") ++
        collection.label ++ " “" ++
        (fieldGet entryDraft.data "title").getD "undefined" ++ "”" ∧
    c.meta.collectionName = collection.name ∧
    c.meta.mode = config.publishMode ∧
    c.meta.options = options := by
  simp only [persistEntry] at h
  split at h
  next hn =>
    split at h
    next =>
      split at h
      next => injection h with h; subst h;
              exact ⟨rfl, rfl, rfl, by simp [hn], rfl, rfl, rfl⟩
      next => exact absurd h (by simp)
    next => exact absurd h (by simp)
  next hn =>
    injection h with h
    subst h
    exact ⟨rfl, rfl, rfl, by simp [hn], rfl, rfl, rfl⟩

theorem persistEntry_meta_bundle_witness :
    persistEntry entryPathEx (some toFileEx) dateEx configEx collectionEx
      draftExistingEx mediaEx optionsEx = .ok persistCallEx ∧
    persistCallEx.meta.newEntry = draftExistingEx.newRecord.getD false ∧
    persistCallEx.meta.parsedData.title =
      (fieldGet draftExistingEx.data "title").getD "No Title" ∧
    persistCallEx.meta.parsedData.description =
      (fieldGet draftExistingEx.data "description").getD "No Description" ∧
    persistCallEx.meta.commitMessage =
      (if draftExistingEx.newRecord.getD false then "Created "
        else "Updated ") ++ collectionEx.label ++ " “" ++
        (fieldGet draftExistingEx.data "title").getD "undefined" ++ "”" ∧
    persistCallEx.meta.collectionName = collectionEx.name ∧
    persistCallEx.meta.mode = configEx.publishMode ∧
    persistCallEx.meta.options = optionsEx :=
  ⟨by decide,
    persistEntry_meta_bundle entryPathEx (some toFileEx) dateEx configEx
      collectionEx draftExistingEx mediaEx optionsEx persistCallEx
      (by decide)⟩

/-- C9: any object `unpublishedEntries` returns carries `pagination = 0`,
for every page/perPage and every backend; and page/perPage only determine
what is forwarded to the backend — fixing the backend's answer, any other
page/perPage arguments produce the same result. -/
theorem unpublishedEntries_pagination_zero
    (impl : Nat → Nat → List LoadedUnpubEntry) (resolveFmt : FormatResolver)
    (page perPage page2 perPage2 : Nat) (r : UnpubResult)
    (h : unpublishedEntries impl resolveFmt page perPage = .ok r) :
    r.pagination = 0 ∧
    unpublishedEntries impl resolveFmt page perPage =
      unpublishedEntries (fun _ _ => impl page perPage) resolveFmt page2
        perPage2 := by
  refine ⟨?_, rfl⟩
  simp only [unpublishedEntries] at h
  obtain ⟨es, hx, hr⟩ := except_map_ok _ _ _ h
  rw [hr]

theorem unpublishedEntries_pagination_zero_witness :
    unpubResultEx.pagination = 0 ∧
    unpublishedEntries unpubImplGoodEx resolveFmtOkEx 1 2 =
      unpublishedEntries (fun _ _ => unpubImplGoodEx 1 2) resolveFmtOkEx 3
        4 :=
  unpublishedEntries_pagination_zero unpubImplGoodEx resolveFmtOkEx 1 2 3 4
    unpubResultEx (by decide)

end NetlifyCMS
